import Mathlib

/-!
Shallow embedding of the `0x02-redis_basic` exercises (`exercise.py`, `web.py`).

Redis byte strings are modelled as Lean `String` (UTF-8 decoding, used by the
code only on values it itself stored as text, is the identity in the model).
Counter keys managed exclusively through `INCR` are modelled as a separate
`Nat`-valued field (Redis stores them as decimal strings); list keys managed
through `RPUSH`/`LRANGE` are a `List String`-valued field.  Keys written by
`SET` carry no expiry; keys written by `SETEX` carry an absolute expiry
instant, and `GET` checks it lazily against the current time `now`, which is
threaded explicitly (the external clock).
-/

/-- The state of the Redis database shared by both modules: plain string keys
(with optional absolute expiry time), INCR-managed counter keys, and
RPUSH-managed list keys. -/
structure RedisState where
  store : String → Option (String × Option Nat)
  counters : String → Nat
  lists : String → List String

/-- A Redis database with no keys at all. -/
def emptyRedis : RedisState :=
  ⟨fun _ => Option.none, fun _ => 0, fun _ => []⟩

/-- `GET key` at time `now`: an entry whose expiry has passed is never
returned (lazy expiry). -/
def redisGet (st : RedisState) (now : Nat) (k : String) : Option String :=
  match st.store k with
  | Option.none => Option.none
  | Option.some (v, Option.none) => Option.some v
  | Option.some (v, Option.some exp) =>
      if now < exp then Option.some v else Option.none

/-- `SET key value` (no expiry); overwrites any previous value and TTL. -/
def redisSet (st : RedisState) (k v : String) : RedisState :=
  { st with store := fun q => if q = k then Option.some (v, Option.none) else st.store q }

/-- `SETEX key seconds value` at time `now`: stores `v` with absolute expiry
`now + seconds`. -/
def redisSetex (st : RedisState) (now : Nat) (k : String) (seconds : Nat) (v : String) : RedisState :=
  { st with store := fun q => if q = k then Option.some (v, Option.some (now + seconds)) else st.store q }

/-- `INCR key`: increments the counter key (an absent key counts as 0). -/
def redisIncr (st : RedisState) (k : String) : RedisState :=
  { st with counters := fun q => if q = k then st.counters k + 1 else st.counters q }

/-- `RPUSH key value`: appends to the list key. -/
def redisRpush (st : RedisState) (k v : String) : RedisState :=
  { st with lists := fun q => if q = k then st.lists k ++ [v] else st.lists q }

/-! ### Python `str`/`int` decimal codec

`redis-py` encodes an `int` value as its decimal representation (`str(n)`)
and `Cache.get_int` converts bytes back with Python's `int()`.  Both are
modelled here over decimal digit characters. -/

/-- The character for one decimal digit (`0`–`9`). -/
def digitChar (d : Nat) : Char :=
  if d = 1 then '1' else if d = 2 then '2' else if d = 3 then '3'
  else if d = 4 then '4' else if d = 5 then '5' else if d = 6 then '6'
  else if d = 7 then '7' else if d = 8 then '8' else if d = 9 then '9'
  else '0'

/-- Numeric value of a decimal digit character. -/
def charVal (c : Char) : Nat :=
  c.toNat - 48

/-- Python `str(n)` for a natural number: its decimal digits, most
significant first (`str(0) = "0"`). -/
def natRepr (n : Nat) : String :=
  if n = 0 then "0"
  else String.mk (((Nat.digits 10 n).reverse).map digitChar)

/-- Python `str(n)` for an `int`: a minus sign followed by the decimal
digits when negative. -/
def intRepr (n : Int) : String :=
  if n < 0 then String.mk ('-' :: (natRepr n.natAbs).data)
  else natRepr n.natAbs

/-- Parse a non-empty all-digit character list as a natural number
(the core of Python `int()`); any other input raises, modelled as `none`. -/
def parseDigits (l : List Char) : Option Nat :=
  if !l.isEmpty && l.all Char.isDigit then
    Option.some (l.foldl (fun a c => a * 10 + charVal c) 0)
  else
    Option.none

/-- Python `int(b)` on a byte string: an optional leading minus sign
followed by decimal digits; failure (`ValueError`) is modelled as `none`. -/
def pyInt (s : String) : Option Int :=
  match s.data with
  | [] => Option.none
  | c :: rest =>
      if c = '-' then
        match parseDigits rest with
        | Option.none => Option.none
        | Option.some m => Option.some (-(m : Int))
      else
        match parseDigits (c :: rest) with
        | Option.none => Option.none
        | Option.some m => Option.some ((m : Int))

/-! ### `exercise.py`: the `Cache` class -/

/-- The values `Cache.store` accepts: `Union[str, bytes, int, float]`.
Raw bytes are modelled as a string of bytes; a Python float is modelled by
its `repr` string (the form `redis-py` sends). -/
inductive StoreData where
  | str (s : String)
  | bytes (b : String)
  | int (n : Int)
  | float (r : String)

/-- The byte encoding `redis-py` applies to a value before storing it. -/
def encodeData : StoreData → String
  | StoreData.str s => s
  | StoreData.bytes b => b
  | StoreData.int n => intRepr n
  | StoreData.float r => r

/-- Python `str(args)` for the one-element argument tuple of `Cache.store`
(quoting of str/bytes arguments is elided; the history claims depend only
on the length and order of the input log, not on its text). -/
def argsRepr (d : StoreData) : String :=
  "(" ++ encodeData d ++ ",)"

/-- The `__qualname__` of `Cache.store`, used as counter and history key. -/
def storeQual : String :=
  "Cache.store"

/-- A method of `Cache` taking one data argument, as state-passing function:
it receives the store and the argument and returns the result plus the new
store. -/
def CacheMethod : Type :=
  RedisState → StoreData → String × RedisState

/-- The `count_calls` decorator: increment the counter key named by the
method qualname, then run the method. -/
def count_calls (qual : String) (method : CacheMethod) : CacheMethod :=
  fun st data => method (redisIncr st qual) data

/-- The `call_history` decorator: append `str(args)` to the `:inputs` list,
run the method, append its output to the `:outputs` list. -/
def call_history (qual : String) (method : CacheMethod) : CacheMethod :=
  fun st data =>
    let st1 := redisRpush st (qual ++ ":inputs") (argsRepr data)
    let r := method st1 data
    let st3 := redisRpush r.2 (qual ++ ":outputs") r.1
    (r.1, st3)

/-- The inputs-history key for a qualname. -/
def inputsKey (qual : String) : String :=
  qual ++ ":inputs"

/-- The outputs-history key for a qualname. -/
def outputsKey (qual : String) : String :=
  qual ++ ":outputs"

/-- The undecorated body of `Cache.store`: set a fresh random key (the UUID
draw is passed in as `freshKey`) to the encoded data and return the key. -/
def Cache.store_body (freshKey : String) : CacheMethod :=
  fun st data => (freshKey, redisSet st freshKey (encodeData data))

/-- `Cache.store` as written: `@count_calls` stacked over `@call_history`
over the body. -/
def Cache.store (freshKey : String) : CacheMethod :=
  count_calls storeQual (call_history storeQual (Cache.store_body freshKey))

/-- `Cache.__init__`: connect and flush the whole database. -/
def Cache.init (_prior : RedisState) : RedisState :=
  emptyRedis

/-- The value `Cache.get` returns: Python `None` for an absent key, the raw
bytes when no conversion function is supplied, or the conversion function
applied to the bytes. -/
inductive GetResult (α : Type) where
  | none
  | raw (b : String)
  | conv (a : α)
deriving DecidableEq

/-- `Cache.get(key, fn)`: read the key; if the data is present and a
conversion function was supplied, apply it; otherwise return the data
(which is `None` exactly when the key is absent). -/
def Cache.get {α : Type} (st : RedisState) (now : Nat) (key : String) (fn : Option (String → α)) : GetResult α :=
  match redisGet st now key with
  | Option.none => GetResult.none
  | Option.some d =>
      match fn with
      | Option.some f => GetResult.conv (f d)
      | Option.none => GetResult.raw d

/-- `Cache.get_str`: `get` with the UTF-8 decode conversion (the identity in
this model). -/
def Cache.get_str (st : RedisState) (now : Nat) (key : String) : GetResult String :=
  Cache.get st now key (Option.some (fun d => d))

/-- `Cache.get_int`: `get` with Python `int` as conversion. -/
def Cache.get_int (st : RedisState) (now : Nat) (key : String) : GetResult (Option Int) :=
  Cache.get st now key (Option.some pyInt)

/-- `replay(method)`: the call count of the qualname together with the
positional pairing of the inputs and outputs history lists (the source
iterates `zip(inputs, outputs)` and prints each pair). -/
def replay (st : RedisState) (qual : String) : Nat × List (String × String) :=
  (st.counters qual, (st.lists (inputsKey qual)).zip (st.lists (outputsKey qual)))

/-! ### `web.py`: `get_page` with `count_access` and `cache_result` -/

/-- Outcome of the underlying `requests.get` call: a successful response
body, or any `requests.exceptions.RequestException` (timeout, connection
error, or an error status raised by `raise_for_status`). -/
inductive FetchResult where
  | ok (content : String)
  | err
deriving DecidableEq

/-- Result of a web-cache call, with a ghost count of how many times the
wrapped fetch body actually ran (not part of the Redis state). -/
structure WebResult where
  content : String
  state : RedisState
  producerCalls : Nat

/-- A URL-fetching function in state-passing form: Redis state, current
time, URL, and the outcome the network would produce. -/
def Fetcher : Type :=
  RedisState → Nat → String → FetchResult → WebResult

/-- Python truthiness of an `Optional[bytes]`: `None` and empty bytes are
falsy. -/
def pyTruthy : Option String → Bool
  | Option.none => false
  | Option.some s => !(s == "")

/-- The cache key for a URL. -/
def cacheKeyOf (url : String) : String :=
  "cache:" ++ url

/-- The access-counter key for a URL. -/
def countKeyOf (url : String) : String :=
  "count:" ++ url

/-- The `count_access` decorator: increment `count:{url}` and run the
wrapped function. -/
def count_access (method : Fetcher) : Fetcher :=
  fun st now url fetch => method (redisIncr st (countKeyOf url)) now url fetch

/-- The `cache_result(expiration)` decorator: if `GET cache:{url}` is truthy
return it (decoded), otherwise run the wrapped function and `SETEX` its
result under `cache:{url}`. -/
def cache_result (expiration : Nat) (method : Fetcher) : Fetcher :=
  fun st now url fetch =>
    let cached := redisGet st now (cacheKeyOf url)
    if pyTruthy cached then
      ⟨cached.getD (""), st, 0⟩
    else
      let r := method st now url fetch
      ⟨r.content, redisSetex r.state now (cacheKeyOf url) expiration r.content, r.producerCalls⟩

/-- The undecorated body of `get_page`: perform the HTTP request inside a
`try`; any request exception is caught and the empty string returned. -/
def get_page_body : Fetcher :=
  fun st _ _ fetch =>
    match fetch with
    | FetchResult.ok c => ⟨c, st, 1⟩
    | FetchResult.err => ⟨"", st, 1⟩

/-- `get_page` as written: `@count_access` stacked over
`@cache_result(expiration=10)` over the body. -/
def get_page : Fetcher :=
  count_access (cache_result 10 get_page_body)

/-! ### Operation sequences -/

/-- One user-visible `Cache` operation: a `store` call (with the UUID the
call draws) or a `get`. -/
inductive CacheOp where
  | storeOp (freshKey : String) (data : StoreData)
  | getOp (key : String)

/-- Run one `Cache` operation for its state effect (`get` is read-only). -/
def runOp (st : RedisState) : CacheOp → RedisState
  | CacheOp.storeOp k d => (Cache.store k st d).2
  | CacheOp.getOp _ => st

/-- Run a sequence of `Cache` operations. -/
def runOps (st : RedisState) (ops : List CacheOp) : RedisState :=
  ops.foldl runOp st

/-- The number of `store` calls in a sequence of operations. -/
def numStores (ops : List CacheOp) : Nat :=
  ops.countP (fun op => match op with | CacheOp.storeOp _ _ => true | CacheOp.getOp _ => false)

/-- Run a sequence of `get_page` calls for one URL; each call supplies the
current time and the outcome the network would produce. -/
def runGetPages (st : RedisState) (url : String) : List (Nat × FetchResult) → RedisState
  | [] => st
  | c :: rest => runGetPages (get_page st c.1 url c.2).state url rest

/-- Run a sequence of `Cache.store` calls; each call supplies the UUID it
draws and the data it stores. -/
def runStores (st : RedisState) (calls : List (String × StoreData)) : RedisState :=
  calls.foldl (fun s c => (Cache.store c.1 s c.2).2) st

/-! ### Helper lemmas -/

/-- One decorated `Cache.store` call increments exactly the `Cache.store`
counter. -/
lemma store_step_counters (st : RedisState) (k : String) (d : StoreData) (q : String) :
    ((Cache.store k st d).2).counters q = st.counters q + (if q = storeQual then 1 else 0) := by
  unfold Cache.store count_calls call_history Cache.store_body
  simp [redisIncr, redisSet, redisRpush]
  split <;> simp_all

/-- One decorated `Cache.store` call appends one entry to the inputs log. -/
lemma store_step_inputs (st : RedisState) (k : String) (d : StoreData) :
    ((Cache.store k st d).2).lists (inputsKey storeQual) =
      st.lists (inputsKey storeQual) ++ [argsRepr d] := by
  unfold Cache.store count_calls call_history Cache.store_body
  have hne : (storeQual ++ ":outputs" : String) ≠ storeQual ++ ":inputs" := by decide
  have hne2 : (storeQual ++ ":inputs" : String) ≠ storeQual ++ ":outputs" := by decide
  simp [redisIncr, redisSet, redisRpush, inputsKey, hne, hne2]

/-- One decorated `Cache.store` call appends the returned key to the
outputs log. -/
lemma store_step_outputs (st : RedisState) (k : String) (d : StoreData) :
    ((Cache.store k st d).2).lists (outputsKey storeQual) =
      st.lists (outputsKey storeQual) ++ [k] := by
  unfold Cache.store count_calls call_history Cache.store_body
  have hne : (storeQual ++ ":inputs" : String) ≠ storeQual ++ ":outputs" := by decide
  have hne2 : (storeQual ++ ":outputs" : String) ≠ storeQual ++ ":inputs" := by decide
  simp [redisIncr, redisSet, redisRpush, outputsKey, hne, hne2]

/-- Over any operation sequence the `Cache.store` counter advances by the
number of `store` calls. -/
lemma runOps_counters (ops : List CacheOp) (st : RedisState) :
    (runOps st ops).counters storeQual = st.counters storeQual + numStores ops := by
  induction ops generalizing st with
  | nil => rfl
  | cons op tl ih =>
    rw [show runOps st (op :: tl) = runOps (runOp st op) tl from rfl, ih]
    cases op with
    | storeOp k d =>
      simp [runOp, store_step_counters, numStores, List.countP_cons]
      omega
    | getOp k =>
      simp [runOp, numStores, List.countP_cons]

/-- Over any operation sequence the inputs log grows by the number of
`store` calls. -/
lemma runOps_inputs (ops : List CacheOp) (st : RedisState) :
    ((runOps st ops).lists (inputsKey storeQual)).length =
      (st.lists (inputsKey storeQual)).length + numStores ops := by
  induction ops generalizing st with
  | nil => rfl
  | cons op tl ih =>
    rw [show runOps st (op :: tl) = runOps (runOp st op) tl from rfl, ih]
    cases op with
    | storeOp k d =>
      simp [runOp, store_step_inputs, numStores, List.countP_cons]
      omega
    | getOp k =>
      simp [runOp, numStores, List.countP_cons]

/-- Over any operation sequence the outputs log grows by the number of
`store` calls. -/
lemma runOps_outputs (ops : List CacheOp) (st : RedisState) :
    ((runOps st ops).lists (outputsKey storeQual)).length =
      (st.lists (outputsKey storeQual)).length + numStores ops := by
  induction ops generalizing st with
  | nil => rfl
  | cons op tl ih =>
    rw [show runOps st (op :: tl) = runOps (runOp st op) tl from rfl, ih]
    cases op with
    | storeOp k d =>
      simp [runOp, store_step_outputs, numStores, List.countP_cons]
      omega
    | getOp k =>
      simp [runOp, numStores, List.countP_cons]

/-- A sequence of `store` calls advances the counter by its length. -/
lemma runStores_counters (calls : List (String × StoreData)) (st : RedisState) :
    (runStores st calls).counters storeQual = st.counters storeQual + calls.length := by
  induction calls generalizing st with
  | nil => rfl
  | cons c tl ih =>
    rw [show runStores st (c :: tl) = runStores ((Cache.store c.1 st c.2).2) tl from rfl, ih,
      store_step_counters]
    simp
    omega

/-- Every `get_page` call, hit or miss, increments the access counter of
its URL. -/
lemma get_page_counters (st : RedisState) (now : Nat) (url : String) (fetch : FetchResult) :
    (get_page st now url fetch).state.counters (countKeyOf url) =
      st.counters (countKeyOf url) + 1 := by
  unfold get_page count_access cache_result
  by_cases hc : pyTruthy (redisGet (redisIncr st (countKeyOf url)) now (cacheKeyOf url))
  · simp [hc]
    simp [redisIncr]
  · simp [hc]
    cases fetch <;> simp [get_page_body, redisSetex, redisIncr]

/-- A sequence of `get_page` calls advances the URL counter by its length. -/
lemma runGetPages_counters (calls : List (Nat × FetchResult)) (st : RedisState) (url : String) :
    (runGetPages st url calls).counters (countKeyOf url) =
      st.counters (countKeyOf url) + calls.length := by
  induction calls generalizing st with
  | nil => rfl
  | cons c tl ih =>
    rw [show runGetPages st url (c :: tl) = runGetPages (get_page st c.1 url c.2).state url tl
      from rfl, ih, get_page_counters]
    simp
    omega

/-- Positional lookup in `List.zip` pairs the two lookups. -/
lemma zip_getElem? {α β : Type} (l1 : List α) (l2 : List β) (i : Nat) :
    (l1.zip l2)[i]? = (l1[i]?).bind (fun a => (l2[i]?).map (fun b => (a, b))) := by
  induction l1 generalizing l2 i with
  | nil => simp
  | cons a tl ih =>
    cases l2 with
    | nil => simp
    | cons b tl2 =>
      cases i with
      | zero => simp
      | succ j => simp [ih]

/-- Digit characters decode back to their digit value. -/
lemma charVal_digitChar (d : Nat) (h : d < 10) : charVal (digitChar d) = d := by
  interval_cases d <;> decide

/-- Every character `digitChar` produces is a decimal digit. -/
lemma digitChar_isDigit (d : Nat) : (digitChar d).isDigit = true := by
  unfold digitChar
  repeat' split
  all_goals decide

/-- Folding the parse step over encoded digit characters equals folding it
over the digits themselves. -/
lemma foldl_map_digitChar (ds : List Nat) (a : Nat) (h : ∀ d ∈ ds, d < 10) :
    (ds.map digitChar).foldl (fun x c => x * 10 + charVal c) a =
      ds.foldl (fun x d => x * 10 + d) a := by
  induction ds generalizing a with
  | nil => rfl
  | cons d tl ih =>
    simp only [List.map_cons, List.foldl_cons]
    rw [charVal_digitChar d (h d (by simp))]
    exact ih _ (fun x hx => h x (by simp [hx]))

/-- The big-endian parse fold agrees with `Nat.ofDigits` base 10. -/
lemma foldr_eq_ofDigits (l : List Nat) :
    l.foldr (fun d acc => acc * 10 + d) 0 = Nat.ofDigits 10 l := by
  induction l with
  | nil => simp [Nat.ofDigits]
  | cons d tl ih =>
    simp [List.foldr_cons, Nat.ofDigits_cons, ih]
    ring

/-- Parsing the reversed digit list of `n` recovers `n`. -/
lemma foldl_digits_reverse (n : Nat) :
    ((Nat.digits 10 n).reverse).foldl (fun x d => x * 10 + d) 0 = n := by
  rw [List.foldl_reverse, foldr_eq_ofDigits, Nat.ofDigits_digits]

/-- Python `int()` inverts the decimal representation of a natural
number. -/
lemma parseDigits_natRepr (n : Nat) : parseDigits (natRepr n).data = Option.some n := by
  by_cases h : n = 0
  · subst h
    decide
  · unfold natRepr
    rw [if_neg h]
    have hmem : ∀ d ∈ (Nat.digits 10 n).reverse, d < 10 := by
      intro d hd
      exact Nat.digits_lt_base (by norm_num) (List.mem_reverse.mp hd)
    have hne : ((Nat.digits 10 n).reverse.map digitChar) ≠ [] := by
      simp [Nat.digits_ne_nil_iff_ne_zero, h]
    unfold parseDigits
    rw [if_pos]
    · rw [foldl_map_digitChar _ _ hmem, foldl_digits_reverse]
    · simp only [Bool.and_eq_true, Bool.not_eq_true']
      constructor
      · simpa [List.isEmpty_iff] using hne
      · rw [List.all_eq_true]
        intro c hc
        obtain ⟨d, _, rfl⟩ := List.mem_map.mp hc
        exact digitChar_isDigit d

/-- The decimal representation of a natural number starts with a digit
character. -/
lemma natRepr_head_digit (m : Nat) :
    ∃ c rest, (natRepr m).data = c :: rest ∧ c.isDigit = true := by
  by_cases h : m = 0
  · subst h
    exact ⟨'0', [], rfl, rfl⟩
  · unfold natRepr
    rw [if_neg h]
    have hne : ((Nat.digits 10 m).reverse.map digitChar) ≠ [] := by
      simp [Nat.digits_ne_nil_iff_ne_zero, h]
    obtain ⟨c, rest, hcr⟩ := List.exists_cons_of_ne_nil hne
    refine ⟨c, rest, hcr, ?_⟩
    have hc : c ∈ (Nat.digits 10 m).reverse.map digitChar := by
      rw [hcr]; simp
    obtain ⟨d, _, rfl⟩ := List.mem_map.mp hc
    exact digitChar_isDigit d

/-- Python `int()` inverts Python `str()` on every integer. -/
lemma pyInt_intRepr (n : Int) : pyInt (intRepr n) = Option.some n := by
  by_cases hneg : n < 0
  · unfold intRepr
    rw [if_pos hneg]
    have h1 : (String.mk ('-' :: (natRepr n.natAbs).data)).data =
        '-' :: (natRepr n.natAbs).data := rfl
    simp only [pyInt, h1, if_pos, parseDigits_natRepr]
    have h2 : -((n.natAbs : Nat) : Int) = n := by omega
    rw [h2]
  · unfold intRepr
    rw [if_neg hneg]
    obtain ⟨c, rest, hdata, hdig⟩ := natRepr_head_digit n.natAbs
    have hdash : ¬ (c = '-') := by
      intro he
      rw [he] at hdig
      exact absurd hdig (by decide)
    simp only [pyInt, hdata]
    rw [if_neg hdash, show c :: rest = (natRepr n.natAbs).data from hdata.symm,
      parseDigits_natRepr]
    show Option.some ((n.natAbs : Nat) : Int) = Option.some n
    rw [show ((n.natAbs : Nat) : Int) = n from by omega]

/-- After a `Cache.store` call, reading the fresh key returns the encoded
data. -/
lemma store_then_redisGet (st : RedisState) (key : String) (d : StoreData) (now : Nat) :
    redisGet ((Cache.store key st d).2) now key = Option.some (encodeData d) := by
  unfold Cache.store count_calls call_history Cache.store_body
  simp [redisGet, redisSet, redisRpush, redisIncr]

/-! ### Claims -/

/-- Claim C1, counterexample: after a failing fetch for a fresh URL,
`get_page` returns the empty string (no failure reaches the caller) and an
entry for that URL **is** written to the cache — the empty string with the
standard 10-second expiry — contradicting "the failure is propagated … and
the cache is left unmodified: no entry for that key is written". -/
theorem C1_counterexample :
    (get_page (Cache.init emptyRedis) 0 ("u") FetchResult.err).content = "" ∧
    (get_page (Cache.init emptyRedis) 0 ("u") FetchResult.err).state.store (cacheKeyOf ("u")) =
      Option.some ("", Option.some 10) := by
  decide

/-- Claim C1 as amended: when the cached value for the URL is not truthy (a
miss, so the producer runs) and the HTTP request fails, `get_page` swallows
the exception and returns the empty string, the empty string is written to
the cache under `cache:{url}` with expiry `now + 10`, and the access
counter is still incremented. -/
theorem C1_failure_writes_empty (st : RedisState) (now : Nat) (url : String)
    (h : pyTruthy (redisGet st now (cacheKeyOf url)) = false) :
    (get_page st now url FetchResult.err).content = "" ∧
    (get_page st now url FetchResult.err).state.store (cacheKeyOf url) =
      Option.some ("", Option.some (now + 10)) ∧
    (get_page st now url FetchResult.err).state.counters (countKeyOf url) =
      st.counters (countKeyOf url) + 1 := by
  have hg : redisGet (redisIncr st (countKeyOf url)) now (cacheKeyOf url) =
      redisGet st now (cacheKeyOf url) := rfl
  unfold get_page count_access cache_result
  rw [hg]
  simp [h, get_page_body, redisSetex, redisIncr]

/-- Witness for C1: the amended statement instantiated on a fresh store at
time 0 with URL `u`. -/
theorem C1_failure_writes_empty_witness :
    pyTruthy (redisGet (Cache.init emptyRedis) 0 (cacheKeyOf ("u"))) = false ∧
    ((get_page (Cache.init emptyRedis) 0 ("u") FetchResult.err).content = "" ∧
      (get_page (Cache.init emptyRedis) 0 ("u") FetchResult.err).state.store (cacheKeyOf ("u")) =
        Option.some ("", Option.some (0 + 10)) ∧
      (get_page (Cache.init emptyRedis) 0 ("u") FetchResult.err).state.counters (countKeyOf ("u")) =
        (Cache.init emptyRedis).counters (countKeyOf ("u")) + 1) :=
  ⟨by decide, C1_failure_writes_empty (Cache.init emptyRedis) 0 ("u") (by decide)⟩

/-- Claim C2, counterexample: with the empty string stored (unexpired)
under `cache:u`, `get_page` does not return the stored empty value as a
hit: it re-invokes the producer and returns the fresh content, so the
stored empty value is conflated with a miss. -/
theorem C2_counterexample :
    redisGet (redisSetex (Cache.init emptyRedis) 0 (cacheKeyOf ("u")) 10 "") 0 (cacheKeyOf ("u")) =
      Option.some "" ∧
    (get_page (redisSetex (Cache.init emptyRedis) 0 (cacheKeyOf ("u")) 10 "") 0 ("u")
        (FetchResult.ok ("x"))).producerCalls = 1 ∧
    (get_page (redisSetex (Cache.init emptyRedis) 0 (cacheKeyOf ("u")) 10 "") 0 ("u")
        (FetchResult.ok ("x"))).content = "x" := by
  decide

/-- Claim C2 as amended: `Cache.get` does report a miss via the `None`
sentinel, distinct from every stored value, and returns a stored empty
value as a hit; but the web cache wrapper `cache_result` tests the cached
value for Python truthiness, so a stored empty string is treated there as
a miss and the fetch body runs again. -/
theorem C2_empty_is_hit_except_web (st : RedisState) (now : Nat) (key url : String)
    (hkey : redisGet st now key = Option.some "")
    (hurl : redisGet st now (cacheKeyOf url) = Option.some "") (fetch : FetchResult) :
    Cache.get st now key (Option.none : Option (String → String)) = GetResult.raw "" ∧
    (∀ k2, st.store k2 = Option.none →
      Cache.get st now k2 (Option.none : Option (String → String)) = GetResult.none) ∧
    (get_page st now url fetch).producerCalls = 1 ∧
    (get_page st now url fetch).content = (get_page_body st now url fetch).content := by
  have hg : redisGet (redisIncr st (countKeyOf url)) now (cacheKeyOf url) =
      redisGet st now (cacheKeyOf url) := rfl
  refine ⟨by simp [Cache.get, hkey], fun k2 hk2 => by simp [Cache.get, redisGet, hk2], ?_, ?_⟩
  · unfold get_page count_access cache_result
    rw [hg]
    simp [hurl, pyTruthy, get_page_body]
    cases fetch <;> rfl
  · unfold get_page count_access cache_result
    rw [hg]
    simp [hurl, pyTruthy, get_page_body]
    cases fetch <;> rfl

/-- Witness for C2: the amended statement instantiated on a store holding
the empty string under `cache:u`, read at time 0. -/
theorem C2_empty_is_hit_except_web_witness :
    redisGet (redisSetex (Cache.init emptyRedis) 0 (cacheKeyOf ("u")) 10 "") 0 (cacheKeyOf ("u")) =
      Option.some "" ∧
    (Cache.get (redisSetex (Cache.init emptyRedis) 0 (cacheKeyOf ("u")) 10 "") 0 (cacheKeyOf ("u"))
        (Option.none : Option (String → String)) = GetResult.raw "" ∧
      (∀ k2, (redisSetex (Cache.init emptyRedis) 0 (cacheKeyOf ("u")) 10 "").store k2 = Option.none →
        Cache.get (redisSetex (Cache.init emptyRedis) 0 (cacheKeyOf ("u")) 10 "") 0 k2
          (Option.none : Option (String → String)) = GetResult.none) ∧
      (get_page (redisSetex (Cache.init emptyRedis) 0 (cacheKeyOf ("u")) 10 "") 0 ("u")
          (FetchResult.ok ("x"))).producerCalls = 1 ∧
      (get_page (redisSetex (Cache.init emptyRedis) 0 (cacheKeyOf ("u")) 10 "") 0 ("u")
          (FetchResult.ok ("x"))).content =
        (get_page_body (redisSetex (Cache.init emptyRedis) 0 (cacheKeyOf ("u")) 10 "") 0 ("u")
          (FetchResult.ok ("x"))).content) :=
  ⟨by decide,
    C2_empty_is_hit_except_web (redisSetex (Cache.init emptyRedis) 0 (cacheKeyOf ("u")) 10 "") 0
      (cacheKeyOf ("u")) ("u") (by decide) (by decide) (FetchResult.ok ("x"))⟩

/-- Claim C3, counterexample: two back-to-back `get_page` calls for the
same URL with no clock advance, where the fetch yields the empty string,
invoke the producer twice, not exactly once (the empty cached value is
falsy, so the second call misses); the access count is still 2. -/
theorem C3_counterexample :
    (get_page (Cache.init emptyRedis) 0 ("u1") (FetchResult.ok "")).producerCalls +
      (get_page (get_page (Cache.init emptyRedis) 0 ("u1") (FetchResult.ok "")).state 0 ("u1")
        (FetchResult.ok "")).producerCalls = 2 ∧
    (get_page (get_page (Cache.init emptyRedis) 0 ("u1") (FetchResult.ok "")).state 0 ("u1")
        (FetchResult.ok "")).state.counters (countKeyOf ("u1")) = 2 := by
  decide

/-- Claim C3 as amended: starting fresh, if the first fetch returns
non-empty content `c`, then a second call within the TTL invokes the
producer zero further times (one invocation in total), both calls return
`c`, and the access count ends at 2.  (With empty content the producer runs
again — see the counterexample.) -/
theorem C3_cached_second_call (url c : String) (hc : c ≠ "") (now1 now2 : Nat)
    (_hle : now1 ≤ now2) (hlt : now2 < now1 + 10) (f2 : FetchResult) :
    (get_page (Cache.init emptyRedis) now1 url (FetchResult.ok c)).producerCalls = 1 ∧
    (get_page (Cache.init emptyRedis) now1 url (FetchResult.ok c)).content = c ∧
    (get_page (get_page (Cache.init emptyRedis) now1 url (FetchResult.ok c)).state now2 url
        f2).producerCalls = 0 ∧
    (get_page (get_page (Cache.init emptyRedis) now1 url (FetchResult.ok c)).state now2 url
        f2).content = c ∧
    (get_page (get_page (Cache.init emptyRedis) now1 url (FetchResult.ok c)).state now2 url
        f2).state.counters (countKeyOf url) = 2 := by
  have h1 : get_page (Cache.init emptyRedis) now1 url (FetchResult.ok c) =
      ⟨c, redisSetex (redisIncr (Cache.init emptyRedis) (countKeyOf url)) now1 (cacheKeyOf url) 10 c, 1⟩ := by
    unfold get_page count_access cache_result
    simp [pyTruthy, redisGet, Cache.init, emptyRedis, redisIncr, get_page_body]
  rw [h1]
  have hget : redisGet (redisIncr (redisSetex (redisIncr (Cache.init emptyRedis) (countKeyOf url))
      now1 (cacheKeyOf url) 10 c) (countKeyOf url)) now2 (cacheKeyOf url) = Option.some c := by
    simp [redisGet, redisSetex, redisIncr, hlt]
  unfold get_page count_access cache_result
  rw [hget]
  simp [pyTruthy, hc, redisIncr, redisSetex, Cache.init, emptyRedis]

/-- Witness for C3: the amended statement instantiated with URL `u`,
content `h`, both calls at time 0, and a failing second fetch. -/
theorem C3_cached_second_call_witness :
    (("h" : String) ≠ "") ∧ (0 : Nat) ≤ 0 ∧ (0 : Nat) < 0 + 10 ∧
    ((get_page (Cache.init emptyRedis) 0 ("u") (FetchResult.ok ("h"))).producerCalls = 1 ∧
      (get_page (Cache.init emptyRedis) 0 ("u") (FetchResult.ok ("h"))).content = "h" ∧
      (get_page (get_page (Cache.init emptyRedis) 0 ("u") (FetchResult.ok ("h"))).state 0 ("u")
          FetchResult.err).producerCalls = 0 ∧
      (get_page (get_page (Cache.init emptyRedis) 0 ("u") (FetchResult.ok ("h"))).state 0 ("u")
          FetchResult.err).content = "h" ∧
      (get_page (get_page (Cache.init emptyRedis) 0 ("u") (FetchResult.ok ("h"))).state 0 ("u")
          FetchResult.err).state.counters (countKeyOf ("u")) = 2) :=
  ⟨by decide, by decide, by decide,
    C3_cached_second_call ("u") ("h") (by decide) 0 0 (by decide) (by decide) FetchResult.err⟩

/-- Claim C4: after every sequence of `Cache` operations from a fresh
state, the recorder state for `Cache.store` satisfies
`len(outputs) ≤ len(inputs) ≤ callCount`, and — every call here running to
completion — `len(inputs) = len(outputs)`. -/
theorem C4_recorder_invariant (ops : List CacheOp) :
    ((runOps (Cache.init emptyRedis) ops).lists (outputsKey storeQual)).length ≤
      ((runOps (Cache.init emptyRedis) ops).lists (inputsKey storeQual)).length ∧
    ((runOps (Cache.init emptyRedis) ops).lists (inputsKey storeQual)).length ≤
      (runOps (Cache.init emptyRedis) ops).counters storeQual ∧
    ((runOps (Cache.init emptyRedis) ops).lists (inputsKey storeQual)).length =
      ((runOps (Cache.init emptyRedis) ops).lists (outputsKey storeQual)).length := by
  have h1 := runOps_counters ops (Cache.init emptyRedis)
  have h2 := runOps_inputs ops (Cache.init emptyRedis)
  have h3 := runOps_outputs ops (Cache.init emptyRedis)
  simp only [show (Cache.init emptyRedis).counters storeQual = 0 from rfl,
    show ((Cache.init emptyRedis).lists (inputsKey storeQual)).length = 0 from rfl,
    show ((Cache.init emptyRedis).lists (outputsKey storeQual)).length = 0 from rfl] at h1 h2 h3
  omega

/-- Claim C5: starting from a fresh state, after any sequence of N calls to
the instrumented operation the stored call count equals N — both for
`Cache.store` (the `count_calls` counter) and for `get_page` on one URL
(the `count_access` counter). -/
theorem C5_count_equals_calls :
    (∀ calls : List (String × StoreData),
      (runStores (Cache.init emptyRedis) calls).counters storeQual = calls.length) ∧
    (∀ (url : String) (calls : List (Nat × FetchResult)),
      (runGetPages (Cache.init emptyRedis) url calls).counters (countKeyOf url) = calls.length) := by
  constructor
  · intro calls
    rw [runStores_counters]
    simp [Cache.init, emptyRedis]
  · intro url calls
    rw [runGetPages_counters]
    simp [Cache.init, emptyRedis]

/-- Claim C6: for every recorder state — the input and output logs may have
unequal lengths — `replay` pairs inputs and outputs positionally exactly up
to `min(len(inputs), len(outputs))`; it is total, so a length mismatch
never makes it fail. -/
theorem C6_replay_pairs (st : RedisState) (q : String) :
    ((replay st q).2).length =
      min ((st.lists (inputsKey q)).length) ((st.lists (outputsKey q)).length) ∧
    ∀ i : Nat, ((replay st q).2)[i]? =
      ((st.lists (inputsKey q))[i]?).bind
        (fun a => ((st.lists (outputsKey q))[i]?).map (fun b => (a, b))) := by
  constructor
  · simp [replay, inputsKey, outputsKey]
  · intro i
    simp [replay, inputsKey, outputsKey, zip_getElem?]

/-- Claim C7: `Cache.__init__` flushes the database: whatever the prior
state, immediately afterwards every key is absent from the store (and
`GET` misses at every time), every counter is 0 and every history list is
empty. -/
theorem C7_init_clears (prior : RedisState) (now : Nat) (k : String) :
    (Cache.init prior).store k = Option.none ∧
    redisGet (Cache.init prior) now k = Option.none ∧
    (Cache.init prior).counters k = 0 ∧
    (Cache.init prior).lists k = [] :=
  ⟨rfl, rfl, rfl, rfl⟩

/-- Claim C8: round-trip — after `key = store(data)`, `get(key)` returns
the byte encoding of the data, `get(key, fn)` returns `fn` of that
encoding, `get_str` recovers a stored string and `get_int` recovers a
stored integer. -/
theorem C8_roundtrip (st : RedisState) (key : String) (now : Nat) (α : Type) (f : String → α) :
    (∀ d : StoreData,
      Cache.get ((Cache.store key st d).2) now key (Option.none : Option (String → String)) =
        GetResult.raw (encodeData d)) ∧
    (∀ d : StoreData,
      Cache.get ((Cache.store key st d).2) now key (Option.some f) =
        GetResult.conv (f (encodeData d))) ∧
    (∀ s : String,
      Cache.get_str ((Cache.store key st (StoreData.str s)).2) now key = GetResult.conv s) ∧
    (∀ n : Int,
      Cache.get_int ((Cache.store key st (StoreData.int n)).2) now key =
        GetResult.conv (Option.some n)) := by
  refine ⟨fun d => ?_, fun d => ?_, fun s => ?_, fun n => ?_⟩
  · simp [Cache.get, store_then_redisGet]
  · simp [Cache.get, store_then_redisGet]
  · simp [Cache.get_str, Cache.get, store_then_redisGet, encodeData]
  · simp [Cache.get_int, Cache.get, store_then_redisGet, encodeData, pyInt_intRepr]

/-- Claim C9: for a key absent from the store, `Cache.get` returns the
`None` sentinel whatever conversion function is supplied — the result does
not contain an application of `fn`, so `fn` is never applied. -/
theorem C9_absent_key (α : Type) (st : RedisState) (now : Nat) (key : String)
    (h : st.store key = Option.none) (f : String → α) :
    Cache.get st now key (Option.some f) = GetResult.none ∧
    Cache.get st now key (Option.none : Option (String → α)) = GetResult.none := by
  constructor <;> simp [Cache.get, redisGet, h]

/-- Witness for C9: a fresh store, key `k`, with the identity conversion. -/
theorem C9_witness :
    (Cache.init emptyRedis).store ("k") = Option.none ∧
    (Cache.get (Cache.init emptyRedis) 0 ("k") (Option.some (fun d => d)) = GetResult.none ∧
      Cache.get (Cache.init emptyRedis) 0 ("k") (Option.none : Option (String → String)) =
        GetResult.none) :=
  ⟨rfl, C9_absent_key String (Cache.init emptyRedis) 0 ("k") rfl (fun d => d)⟩

/-- Claim C10: `get_page` never raises on a failing fetch — whenever the
underlying HTTP request actually runs (the producer is invoked) and fails,
`get_page` returns the empty string instead of propagating the
exception. -/
theorem C10_failing_fetch_empty (st : RedisState) (now : Nat) (url : String)
    (h : (get_page st now url FetchResult.err).producerCalls = 1) :
    (get_page st now url FetchResult.err).content = "" := by
  unfold get_page count_access cache_result at h ⊢
  by_cases hc : pyTruthy (redisGet (redisIncr st (countKeyOf url)) now (cacheKeyOf url))
  · simp [hc] at h
  · simp [hc, get_page_body]

/-- Witness for C10: a failing fetch for URL `u` on a fresh store. -/
theorem C10_witness :
    (get_page (Cache.init emptyRedis) 0 ("u") FetchResult.err).producerCalls = 1 ∧
    (get_page (Cache.init emptyRedis) 0 ("u") FetchResult.err).content = "" :=
  ⟨by decide, C10_failing_fetch_empty (Cache.init emptyRedis) 0 ("u") (by decide)⟩
